import Mathlib

/-!
Shallow embedding of the order tracking core of the lidercargo_web
repository (apps/users/models.py and apps/users/views.py).

Modelling conventions:
- Database rows become Lean structures; an Order carries the list of its
  TrackingEvent rows (the events related manager), in insertion order.
- Timestamps are integers counted in minutes; timezone.now() becomes an
  explicit now argument threaded through every operation.
- Python string helpers the code relies on (strip, startswith, format)
  are re-implemented structurally on the character list of the string so
  that every definition is executable by the kernel.
- Django queryset calls translate to list operations (filter, find?, map);
  the select_for_update transaction of handle_scan is modelled by the
  functional update of the order list, an error return standing for an
  exception that rolls the transaction back.
-/

namespace LiderCargo

/-- Pickup point (models.py, class PickupPoint): only the fields read by
the status rendering context are modelled. -/
structure PickupPoint where
  name_ru : String
  region_code : String
  branch_code : String
  address : String
  code_label : String
deriving Repr, DecidableEq

/-- User (models.py, class User): only the fields that the scanning,
claiming and rendering paths read. -/
structure User where
  id : Nat
  is_employee : Bool
  is_staff : Bool
  is_superuser : Bool
  is_authenticated : Bool
  pickup_point : Option PickupPoint
deriving Repr, DecidableEq

/-- Tracking event row (models.py, class TrackingEvent). The order foreign
key is represented by nesting the events inside their Order. An actor of
none is an auto generated event. -/
structure TrackingEvent where
  status : String
  location : String
  timestamp : Int
  actor : Option User
deriving Repr, DecidableEq

/-- Order row (models.py, class Order) together with its events list. The
created_at field is not read by any modelled operation and is omitted. -/
structure Order where
  user : Option User
  tracking_number : String
  description : String
  events : List TrackingEvent
deriving Repr, DecidableEq

/-- Python str.startswith, written on the character lists. -/
def strStartsWith (actual pre : String) : Bool :=
  List.isPrefixOf pre.data actual.data

/-- Python str.strip: drop whitespace at both ends. -/
def strTrim (s : String) : String :=
  String.mk (((s.data.dropWhile Char.isWhitespace).reverse.dropWhile Char.isWhitespace).reverse)

/-- Order.STATUS_FLOW (models.py lines 18-23): the four manual steps. -/
def STATUS_FLOW : List String :=
  ["Товар поступил на склад в Китае",
   "Товар отправлен со склада",
   "Прибыл в пункт выдачи",
   "Получен"]

/-- The inner matches helper of Order.next_status (models.py lines 84-88):
step 3 is compared by prefix against the expanded rendering, every other
step by exact equality. -/
def matchesFlow (flow_text actual : String) : Bool :=
  if flow_text == "Прибыл в пункт выдачи" then
    strStartsWith actual "Товар прибыл в пункт выдачи"
  else
    actual == flow_text

/-- Manual events of an order (models.py: events.filter with actor not
null). -/
def Order.manualEvents (o : Order) : List TrackingEvent :=
  o.events.filter (fun e => e.actor.isSome)

/-- The status texts of the manual events (models.py lines 80-82). -/
def manualTexts (o : Order) : List String :=
  o.manualEvents.map TrackingEvent.status

/-- The loop of Order.next_status (models.py lines 90-96). The Python
variable progress ends at this count minus one: the count of leading
steps of the flow list for which some manual text matches. -/
def progressCount (texts : List String) : List String → Nat
  | [] => 0
  | flow_text :: rest =>
      if texts.any (fun t => matchesFlow flow_text t) then
        progressCount texts rest + 1
      else
        0

/-- Order.next_status on a plain list of manual status texts (models.py
lines 98-101): the element of STATUS_FLOW at index progress + 1, none
once all four steps are matched. -/
def nextStatusOfTexts (texts : List String) : Option String :=
  STATUS_FLOW.get? (progressCount texts STATUS_FLOW)

/-- Order.next_status property (models.py lines 72-101). -/
def Order.next_status (o : Order) : Option String :=
  nextStatusOfTexts (manualTexts o)

/-- Default of getattr(settings, "SCAN_COOLDOWN_MINUTES", 5). -/
def SCAN_COOLDOWN_MINUTES : Int := 5

/-- Maximum of a list of integers, none for the empty list. -/
def listMaxInt : List Int → Option Int
  | [] => none
  | x :: xs =>
      match listMaxInt xs with
      | none => some x
      | some m => some (max x m)

/-- Timestamp of Order.last_manual_event (models.py lines 62-65): the
manual event with the greatest timestamp, fetched by order_by descending
timestamp and first(). -/
def lastManualTimestamp (o : Order) : Option Int :=
  listMaxInt (o.manualEvents.map TrackingEvent.timestamp)

/-- Order.can_scan (models.py lines 103-109): true when there is no manual
event yet, or when the last manual event lies at least the cooldown in
the past. -/
def Order.can_scan (o : Order) (now : Int) : Bool :=
  match lastManualTimestamp o with
  | none => true
  | some ts => decide (SCAN_COOLDOWN_MINUTES ≤ now - ts)

/-- Order._template_context (models.py lines 112-136): the destination
pickup point comes from the owner when present, else from the scanning
actor; missing data degrades to empty strings. -/
def templateContext (o : Order) (actor : Option User) : List (String × String) :=
  let pp : Option PickupPoint :=
    match o.user with
    | some u =>
        match u.pickup_point with
        | some p => some p
        | none =>
            match actor with
            | some a => a.pickup_point
            | none => none
    | none =>
        match actor with
        | some a => a.pickup_point
        | none => none
  let dest_city := match pp with | some p => p.name_ru | none => ""
  let dest_code := match pp with | some p => p.region_code ++ "-" ++ p.branch_code | none => ""
  let dest_addr := match pp with | some p => p.address | none => ""
  let dest_label := match pp with | some p => p.code_label | none => ""
  [("pvz_name", if dest_label == "" then dest_city else dest_label),
   ("pvz_code", dest_code),
   ("pvz_address", dest_addr),
   ("track", o.tracking_number),
   ("dest_city", dest_city),
   ("dest_label", dest_label),
   ("dest_code", dest_code)]

/-- Key lookup in the substitution context. -/
def lookupCtx (ctx : List (String × String)) (key : String) : Option String :=
  match ctx.find? (fun p => p.1 == key) with
  | some p => some p.2
  | none => none

/-- Read a placeholder name up to the closing brace; none when the brace
never closes. -/
def splitKey : List Char → Option (List Char × List Char)
  | [] => none
  | c :: rest =>
      if c == '}' then some ([], rest)
      else
        match splitKey rest with
        | some (key, r) => some (c :: key, r)
        | none => none

/-- Core of Python str.format for the plain named placeholders used by
this repository. Returns none when a placeholder is unknown or a brace is
unbalanced; the caller then falls back to the raw template, exactly like
the except branch of Order._render_text. The fuel argument only bounds
the recursion: at least one character is consumed per unit, so the length
of the input suffices. -/
def substFuel (ctx : List (String × String)) : Nat → List Char → Option (List Char)
  | _, [] => some []
  | 0, _ :: _ => none
  | fuel + 1, c :: rest =>
      if c == '{' then
        match rest with
        | c2 :: rest2 =>
            if c2 == '{' then (substFuel ctx fuel rest2).map (fun cs => '{' :: cs)
            else
              match splitKey rest with
              | some (key, rest3) =>
                  match lookupCtx ctx (String.mk key) with
                  | some v => (substFuel ctx fuel rest3).map (fun cs => v.data ++ cs)
                  | none => none
              | none => none
        | [] => none
      else if c == '}' then
        match rest with
        | c2 :: rest2 =>
            if c2 == '}' then (substFuel ctx fuel rest2).map (fun cs => '}' :: cs)
            else none
        | [] => none
      else
        (substFuel ctx fuel rest).map (fun cs => c :: cs)

/-- Order._render_text (models.py lines 138-143): substitute placeholders,
fall back to the raw template on any failure. -/
def renderText (o : Order) (actor : Option User) (template_text : String) : String :=
  match substFuel (templateContext o actor) template_text.data.length template_text.data with
  | some cs => String.mk cs
  | none => template_text

/-- AutoStatusTemplate row (models.py, class AutoStatusTemplate). -/
structure AutoStatusTemplate where
  phase : String
  order_index : Nat
  text : String
  offset_minutes : Nat
  is_active : Bool
deriving Repr, DecidableEq

/-- Order.PHASE_BY_STATUS (models.py lines 190-195). -/
def PHASE_BY_STATUS : List (String × String) :=
  [("Товар поступил на склад в Китае", "AFTER_SCAN_1"),
   ("Товар отправлен со склада", "AFTER_SCAN_2"),
   ("Прибыл в пункт выдачи", "AFTER_SCAN_3"),
   ("Получен", "AFTER_SCAN_4")]

/-- Phase of a just created event (models.py lines 202-207): dictionary
lookup, then the prefix fallback for the expanded step 3 text. -/
def phaseOf (status : String) : Option String :=
  match PHASE_BY_STATUS.find? (fun p => p.1 == status) with
  | some p => some p.2
  | none =>
      if strStartsWith status "Товар прибыл в пункт выдачи" then some "AFTER_SCAN_3"
      else none

/-- Stable insertion into a list sorted by order_index. -/
def insertByOrderIndex (t : AutoStatusTemplate) :
    List AutoStatusTemplate → List AutoStatusTemplate
  | [] => [t]
  | x :: xs =>
      if x.order_index < t.order_index then x :: insertByOrderIndex t xs
      else t :: x :: xs

/-- Stable insertion sort by order_index, the order_by of the template
query in Order.create_due_auto_events (models.py line 209). -/
def sortByOrderIndex : List AutoStatusTemplate → List AutoStatusTemplate
  | [] => []
  | x :: xs => insertByOrderIndex x (sortByOrderIndex xs)

/-- The template query of Order.create_due_auto_events (models.py lines
202-209): phase of the base status, filter on phase and is_active, order
by order_index; empty when the status maps to no phase. -/
def activeTemplates (templates : List AutoStatusTemplate) (status : String) :
    List AutoStatusTemplate :=
  match phaseOf status with
  | none => []
  | some phase => sortByOrderIndex (templates.filter (fun t => t.phase == phase && t.is_active))

/-- The template loop of Order.create_due_auto_events (models.py lines
211-225): walks the templates carrying the events list and the
exists_cache of status texts; a due template whose rendered text is not
cached appends an auto event carrying the due timestamp. -/
def autoLoop (render : String → String) (base_ts now : Int) :
    List AutoStatusTemplate → List TrackingEvent → List String → List TrackingEvent
  | [], evs, _ => evs
  | tpl :: rest, evs, cache =>
      let due_ts : Int := base_ts + (tpl.offset_minutes : Int)
      if due_ts ≤ now then
        let rendered := render tpl.text
        if rendered ∈ cache then
          autoLoop render base_ts now rest evs cache
        else
          autoLoop render base_ts now rest (evs ++ [⟨rendered, "(авто)", due_ts, none⟩])
            (rendered :: cache)
      else
        autoLoop render base_ts now rest evs cache

/-- Order.create_due_auto_events (models.py lines 197-225). -/
def Order.create_due_auto_events (o : Order) (templates : List AutoStatusTemplate)
    (base : TrackingEvent) (actor : Option User) (now : Int) : Order :=
  { o with
    events := autoLoop (renderText o actor) base.timestamp now
      (activeTemplates templates base.status) o.events (o.events.map TrackingEvent.status) }

/-- Errors raised by the scanning paths: PermissionError and the cooldown
ValueError. -/
inductive ScanErr where
  | permission
  | cooldown
deriving Repr, DecidableEq

/-- The capability check of Order.apply_scan (models.py lines 150-156):
skipped for a null actor. -/
def actorLacksCapability (actor : Option User) : Bool :=
  match actor with
  | none => false
  | some a => !(a.is_employee || a.is_staff || a.is_superuser)

/-- The expanded step 3 template of Order.apply_scan (models.py 170-175). -/
def ARRIVED_TEMPLATE : String :=
  "Товар прибыл в пункт выдачи [{pvz_name} {pvz_code}, трек-номер: {track}, адрес: {pvz_address}]"

/-- Order.apply_scan (models.py lines 145-187): capability check, cooldown
check, then create the next status event and materialize due auto
events. The source raises on a failed cooldown; here the two branches of
the if are swapped accordingly. -/
def Order.apply_scan (o : Order) (templates : List AutoStatusTemplate)
    (location : String) (actor : Option User) (now : Int) :
    Except ScanErr (Order × Option TrackingEvent) :=
  if actorLacksCapability actor then .error .permission
  else if o.can_scan now then
    match o.next_status with
    | none => .ok (o, none)
    | some nxt =>
        let status_text :=
          if nxt == "Прибыл в пункт выдачи" then renderText o actor ARRIVED_TEMPLATE
          else nxt
        let ev : TrackingEvent := ⟨status_text, location, now, actor⟩
        let o1 : Order := { o with events := o.events ++ [ev] }
        .ok (o1.create_due_auto_events templates ev actor now, some ev)
  else .error .cooldown

/-- The authorization check of handle_scan (models.py lines 573-578). -/
def scanAuthFails (user : Option User) : Bool :=
  match user with
  | none => false
  | some u => !(u.is_authenticated && (u.is_employee || u.is_staff || u.is_superuser))

/-- Store an order into the database list: replace the row with the same
tracking number, append when absent. -/
def putOrder (db : List Order) (o : Order) : List Order :=
  match db with
  | [] => [o]
  | x :: xs =>
      if x.tracking_number == o.tracking_number then o :: xs
      else x :: putOrder xs o

/-- handle_scan (models.py lines 555-596): trim the tracking number, check
authorization, fetch or create the order, enforce the cooldown for an
existing order, then delegate to apply_scan. An error return models an
exception leaving the transaction rolled back, hence no database change. -/
def handle_scan (db : List Order) (templates : List AutoStatusTemplate)
    (tracking_number : String) (location : Option String) (user : Option User)
    (description : String) (raise_on_cooldown : Bool) (now : Int) :
    Except ScanErr (List Order × Order × Option TrackingEvent) :=
  let tn := strTrim tracking_number
  if scanAuthFails user then .error .permission
  else
    let found := db.find? (fun o => o.tracking_number == tn)
    let order : Order :=
      match found with
      | some o => o
      | none => { user := none, tracking_number := tn, description := description, events := [] }
    let created : Bool := found.isNone
    if !created && !(order.can_scan now) then
      if raise_on_cooldown then .error .cooldown
      else .ok (db, order, none)
    else
      match order.apply_scan templates (location.getD "") user now with
      | .error e => .error e
      | .ok (order2, ev) => .ok (putOrder db order2, order2, ev)

/-- HTTP outcome of OrderClaimAPIView.post for an order that was found. -/
inductive ClaimStatus where
  | ok200
  | conflict409
deriving Repr, DecidableEq

/-- OrderClaimAPIView.post (views.py lines 244-269), the part after the
row lookup: idempotent success for the current owner, attach when free,
conflict when owned by another user. -/
def orderClaimPost (o : Order) (requester : User) : ClaimStatus × Order :=
  if o.user.map User.id == some requester.id then (.ok200, o)
  else
    match o.user with
    | none => (.ok200, { o with user := some requester })
    | some _ => (.conflict409, o)

/-- An employee user fixture. -/
def emplUser : User :=
  { id := 1, is_employee := true, is_staff := false, is_superuser := false,
    is_authenticated := true, pickup_point := none }

/-- A manual step 1 event fixture at time 0. -/
def evStep1 : TrackingEvent := ⟨"Товар поступил на склад в Китае", "", 0, some emplUser⟩

/-- A manual step 2 event fixture at time 10. -/
def evStep2 : TrackingEvent := ⟨"Товар отправлен со склада", "", 10, some emplUser⟩

/-- A manual step 3 event fixture at time 20; its text begins with the
expanded prefix, as the formatted step 3 rendering does. -/
def evStep3 : TrackingEvent := ⟨"Товар прибыл в пункт выдачи", "", 20, some emplUser⟩

/-- A manual step 4 event fixture at time 30. -/
def evStep4 : TrackingEvent := ⟨"Получен", "", 30, some emplUser⟩

/-- A fully delivered order: all four manual steps done. -/
def orderDone : Order := ⟨none, "AB123", "", [evStep1, evStep2, evStep3, evStep4]⟩

/-- An order with one manual scan at time 0. -/
def orderOneScan : Order := ⟨none, "AB124", "", [evStep1]⟩

/-- A fresh order with no events. -/
def orderFresh : Order := ⟨none, "AB125", "", []⟩

/-- A template whose text coincides with the step 1 status text. -/
def tplSameText : AutoStatusTemplate :=
  { phase := "AFTER_SCAN_1", order_index := 0, text := "Товар поступил на склад в Китае",
    offset_minutes := 0, is_active := true }

/-- An ordinary zero offset template with a fresh text. -/
def tplDocs : AutoStatusTemplate :=
  { phase := "AFTER_SCAN_1", order_index := 0, text := "Документы оформлены",
    offset_minutes := 0, is_active := true }

/-- Step i of the flow is matched by some text of the list: the matching
relation the specification describes for the progress computation. -/
def stepMatched (texts : List String) (i : Nat) : Prop :=
  ∃ ft, STATUS_FLOW.get? i = some ft ∧ ∃ t ∈ texts, matchesFlow ft t = true

/-!  Lemmas about the progress computation of Order.next_status.  -/

/-- The progress count never exceeds the length of the flow list. -/
theorem progressCount_le_length (texts : List String) :
    ∀ flow : List String, progressCount texts flow ≤ flow.length := by
  intro flow
  induction flow with
  | nil => simp [progressCount]
  | cons flow_text rest ih =>
      cases h : (texts.any fun t => matchesFlow flow_text t) with
      | true =>
          simp only [progressCount, h, if_true, List.length_cons]
          omega
      | false =>
          simp [progressCount, h]

/-- Every index below the progress count is a matched step. -/
theorem progressCount_matched (texts : List String) :
    ∀ (flow : List String) (i : Nat), i < progressCount texts flow →
      ∃ ft, flow.get? i = some ft ∧ (texts.any fun t => matchesFlow ft t) = true := by
  intro flow
  induction flow with
  | nil => intro i h; simp [progressCount] at h
  | cons flow_text rest ih =>
      intro i h
      by_cases hm : (texts.any fun t => matchesFlow flow_text t) = true
      · cases i with
        | zero => exact ⟨flow_text, rfl, hm⟩
        | succ j =>
            simp only [progressCount, hm, if_true] at h
            exact ih j (by omega)
      · simp [progressCount, hm] at h

/-- The progress count is the largest index with an all-matched prefix. -/
theorem progressCount_largest (texts : List String) :
    ∀ (flow : List String) (j : Nat),
      (∀ i, i < j → ∃ ft, flow.get? i = some ft ∧ (texts.any fun t => matchesFlow ft t) = true) →
      j ≤ progressCount texts flow := by
  intro flow
  induction flow with
  | nil =>
      intro j h
      cases j with
      | zero => simp
      | succ j =>
          obtain ⟨ft, hft, _⟩ := h 0 (by omega)
          simp at hft
  | cons flow_text rest ih =>
      intro j h
      cases j with
      | zero => exact Nat.zero_le _
      | succ j =>
          obtain ⟨ft, hft, hm⟩ := h 0 (by omega)
          have hft0 : ft = flow_text := by
            simpa using hft.symm
          subst hft0
          have hrest : j ≤ progressCount texts rest := by
            apply ih
            intro i hi
            obtain ⟨ft2, hft2, hm2⟩ := h (i + 1) (by omega)
            exact ⟨ft2, by simpa using hft2, hm2⟩
          simp only [progressCount, hm, if_true]
          omega

/-- The progress count only grows when the list of texts grows. -/
theorem progressCount_mono (texts₁ texts₂ : List String)
    (hsub : ∀ f : String → Bool, texts₁.any f = true → texts₂.any f = true) :
    ∀ flow : List String, progressCount texts₁ flow ≤ progressCount texts₂ flow := by
  intro flow
  induction flow with
  | nil => simp [progressCount]
  | cons flow_text rest ih =>
      by_cases h1 : (texts₁.any fun t => matchesFlow flow_text t) = true
      · have h2 := hsub _ h1
        simp only [progressCount, h1, h2, if_true]
        omega
      · simp [progressCount, h1]

/-- Claim C1: for every order, the next status is computed from the
largest prefix index k such that every step below k is matched by some
manual event text (step 3 by the expanded prefix, the others by exact
equality); the next status is STATUS_FLOW at index k, which is none
exactly when k = 4. -/
theorem next_status_characterization (o : Order) :
    ∃ k, k ≤ 4 ∧
      (∀ i, i < k → stepMatched (manualTexts o) i) ∧
      (∀ j, (∀ i, i < j → stepMatched (manualTexts o) i) → j ≤ k) ∧
      o.next_status = STATUS_FLOW.get? k ∧
      (k = 4 → o.next_status = none) := by
  refine ⟨progressCount (manualTexts o) STATUS_FLOW, ?_, ?_, ?_, rfl, ?_⟩
  · exact progressCount_le_length (manualTexts o) STATUS_FLOW
  · intro i hi
    obtain ⟨ft, hft, hany⟩ := progressCount_matched (manualTexts o) STATUS_FLOW i hi
    refine ⟨ft, hft, ?_⟩
    simpa [List.any_eq_true] using hany
  · intro j hj
    apply progressCount_largest
    intro i hi
    obtain ⟨ft, hft, ht⟩ := hj i hi
    refine ⟨ft, hft, ?_⟩
    simpa [List.any_eq_true] using ht
  · intro hk
    show STATUS_FLOW.get? (progressCount (manualTexts o) STATUS_FLOW) = none
    rw [hk]
    rfl

/-- Claim C8: progress is monotone: appending one more status text never
decreases the progress count against STATUS_FLOW. -/
theorem progress_monotone (L : List String) (t : String) :
    progressCount L STATUS_FLOW ≤ progressCount (L ++ [t]) STATUS_FLOW := by
  apply progressCount_mono
  intro f hf
  rw [List.any_append]
  simp [hf]

/-!  Lemmas about the auto event materialization.  -/

/-- Full behaviour of the template loop: under the cache invariant, the
loop appends a block of auto events; every appended event stems from a
due template, carries the rendered text, the auto location marker, the
due timestamp and no actor; every due template ends with its rendered
text present; no appended event duplicates an existing status text and
the appended texts are mutually distinct. -/
theorem autoLoop_spec (render : String → String) (base_ts now : Int) :
    ∀ (tpls : List AutoStatusTemplate) (evs : List TrackingEvent) (cache : List String),
      (∀ s, s ∈ cache ↔ s ∈ evs.map TrackingEvent.status) →
      ∃ newEvs,
        autoLoop render base_ts now tpls evs cache = evs ++ newEvs ∧
        (∀ e ∈ newEvs, e.actor = none ∧ e.location = "(авто)" ∧
          ∃ tpl, tpl ∈ tpls ∧ e.status = render tpl.text ∧
            e.timestamp = base_ts + (tpl.offset_minutes : Int) ∧ e.timestamp ≤ now) ∧
        (∀ tpl, tpl ∈ tpls → base_ts + (tpl.offset_minutes : Int) ≤ now →
          render tpl.text ∈ (evs ++ newEvs).map TrackingEvent.status) ∧
        (∀ e ∈ newEvs, e.status ∉ evs.map TrackingEvent.status) ∧
        (newEvs.map TrackingEvent.status).Nodup := by
  intro tpls
  induction tpls with
  | nil =>
      intro evs cache hc
      exact ⟨[], by simp [autoLoop], by simp, by simp, by simp, by simp⟩
  | cons tpl rest ih =>
      intro evs cache hc
      by_cases hdue : base_ts + (tpl.offset_minutes : Int) ≤ now
      · by_cases hmem : render tpl.text ∈ cache
        · obtain ⟨newEvs, h1, h2, h3, h4, h5⟩ := ih evs cache hc
          refine ⟨newEvs, ?_, ?_, ?_, h4, h5⟩
          · simpa [autoLoop, hdue, hmem] using h1
          · intro e he
            obtain ⟨ha, hl, tpl2, hm2, hst, hts, hle⟩ := h2 e he
            exact ⟨ha, hl, tpl2, List.mem_cons_of_mem _ hm2, hst, hts, hle⟩
          · intro tpl2 htpl2 hd2
            rcases List.mem_cons.mp htpl2 with heq | hm2
            · subst heq
              have hin : render tpl2.text ∈ evs.map TrackingEvent.status := (hc _).mp hmem
              rw [List.map_append]
              exact List.mem_append_left _ hin
            · exact h3 tpl2 hm2 hd2
        · have hc2 : ∀ s, s ∈ (render tpl.text :: cache) ↔
              s ∈ ((evs ++ [(⟨render tpl.text, "(авто)", base_ts + (tpl.offset_minutes : Int),
                none⟩ : TrackingEvent)]).map TrackingEvent.status) := by
            intro s
            simp only [List.mem_cons, List.map_append, List.mem_append, List.map_cons,
              List.map_nil, List.mem_singleton, hc s]
            tauto
          obtain ⟨newEvs, h1, h2, h3, h4, h5⟩ :=
            ih (evs ++ [⟨render tpl.text, "(авто)", base_ts + (tpl.offset_minutes : Int), none⟩])
              (render tpl.text :: cache) hc2
          refine ⟨(⟨render tpl.text, "(авто)", base_ts + (tpl.offset_minutes : Int), none⟩ :
            TrackingEvent) :: newEvs, ?_, ?_, ?_, ?_, ?_⟩
          · have hstep : autoLoop render base_ts now (tpl :: rest) evs cache
                = autoLoop render base_ts now rest
                  (evs ++ [⟨render tpl.text, "(авто)", base_ts + (tpl.offset_minutes : Int), none⟩])
                  (render tpl.text :: cache) := by
              simp [autoLoop, hdue, hmem]
            rw [hstep, h1]
            simp
          · intro e he
            rcases List.mem_cons.mp he with heq | hm2
            · subst heq
              exact ⟨rfl, rfl, tpl, List.mem_cons_self _ _, rfl, rfl, hdue⟩
            · obtain ⟨ha, hl, tpl2, hm3, hst, hts, hle⟩ := h2 e hm2
              exact ⟨ha, hl, tpl2, List.mem_cons_of_mem _ hm3, hst, hts, hle⟩
          · intro tpl2 htpl2 hd2
            rcases List.mem_cons.mp htpl2 with heq | hm2
            · subst heq
              simp
            · have hin := h3 tpl2 hm2 hd2
              rw [List.map_append] at hin ⊢
              simpa using hin
          · intro e he
            rcases List.mem_cons.mp he with heq | hm2
            · subst heq
              intro hcontra
              exact hmem ((hc _).mpr hcontra)
            · have hnot := h4 e hm2
              intro hcontra
              apply hnot
              rw [List.map_append]
              exact List.mem_append_left _ hcontra
          · rw [List.map_cons]
            refine List.nodup_cons.mpr ⟨?_, h5⟩
            intro hcontra
            obtain ⟨e, he, hst⟩ := List.mem_map.mp hcontra
            apply h4 e he
            rw [List.map_append]
            apply List.mem_append_right
            simp [hst]
      · obtain ⟨newEvs, h1, h2, h3, h4, h5⟩ := ih evs cache hc
        refine ⟨newEvs, ?_, ?_, ?_, h4, h5⟩
        · simpa [autoLoop, hdue] using h1
        · intro e he
          obtain ⟨ha, hl, tpl2, hm2, hst, hts, hle⟩ := h2 e he
          exact ⟨ha, hl, tpl2, List.mem_cons_of_mem _ hm2, hst, hts, hle⟩
        · intro tpl2 htpl2 hd2
          rcases List.mem_cons.mp htpl2 with heq | hm2
          · subst heq
            exact absurd hd2 hdue
          · exact h3 tpl2 hm2 hd2

/-- Behaviour of Order.create_due_auto_events, derived from the loop
lemma with the initial cache being exactly the existing status texts. -/
theorem create_due_spec (o : Order) (templates : List AutoStatusTemplate)
    (base : TrackingEvent) (actor : Option User) (now : Int) :
    ∃ newEvs,
      (o.create_due_auto_events templates base actor now).events = o.events ++ newEvs ∧
      (∀ e ∈ newEvs, e.actor = none ∧ e.location = "(авто)" ∧
        ∃ tpl, tpl ∈ activeTemplates templates base.status ∧
          e.status = renderText o actor tpl.text ∧
          e.timestamp = base.timestamp + (tpl.offset_minutes : Int) ∧ e.timestamp ≤ now) ∧
      (∀ tpl, tpl ∈ activeTemplates templates base.status →
        base.timestamp + (tpl.offset_minutes : Int) ≤ now →
        renderText o actor tpl.text ∈ (o.events ++ newEvs).map TrackingEvent.status) ∧
      (∀ e ∈ newEvs, e.status ∉ o.events.map TrackingEvent.status) ∧
      (newEvs.map TrackingEvent.status).Nodup := by
  have h := autoLoop_spec (renderText o actor) base.timestamp now
    (activeTemplates templates base.status) o.events (o.events.map TrackingEvent.status)
    (fun s => Iff.rfl)
  simpa [Order.create_due_auto_events] using h

/-- A status text already present keeps its multiplicity across one run of
the due auto event materialization. -/
theorem create_due_count (o : Order) (templates : List AutoStatusTemplate)
    (base : TrackingEvent) (actor : Option User) (now : Int) (s : String)
    (hs : s ∈ o.events.map TrackingEvent.status) :
    List.count s ((o.create_due_auto_events templates base actor now).events.map
        TrackingEvent.status)
      = List.count s (o.events.map TrackingEvent.status) := by
  obtain ⟨newEvs, h1, _, _, h4, _⟩ := create_due_spec o templates base actor now
  rw [h1, List.map_append, List.count_append]
  have hzero : List.count s (newEvs.map TrackingEvent.status) = 0 := by
    rw [List.count_eq_zero]
    intro hmem
    obtain ⟨e, he, hst⟩ := List.mem_map.mp hmem
    exact h4 e he (by rw [hst]; exact hs)
  omega

/-- Claim C4, counterexample: a due active template of the matching phase
creates no auto event when its rendered text already occurs among the
events of the order — here the template text coincides with the base
event text, so with due time 0 at now = 10 the events stay unchanged. -/
theorem due_template_skipped_counterexample :
    phaseOf "Товар поступил на склад в Китае" = some "AFTER_SCAN_1" ∧
    tplSameText.is_active = true ∧
    evStep1.timestamp + (tplSameText.offset_minutes : Int) ≤ 10 ∧
    renderText orderOneScan none tplSameText.text = "Товар поступил на склад в Китае" ∧
    (orderOneScan.create_due_auto_events [tplSameText] evStep1 none 10).events
      = [evStep1] :=
  ⟨rfl, rfl, by decide, rfl, rfl⟩

/-- Claim C4, amended: for each active template of the phase of the
triggering event, in order_index order, an auto event is created when the
due time (event timestamp plus offset minutes) is at most now, unless its
rendered text already occurs among the order events or was created
earlier in the same pass; every created event carries the rendered text,
a null actor, the location marker of the source, which is the Russian
"(авто)" rather than "(auto)", and the computed due timestamp, never the
current time; templates with a future due time create no event. -/
theorem due_auto_events_created (o : Order) (templates : List AutoStatusTemplate)
    (base : TrackingEvent) (actor : Option User) (now : Int) :
    ∃ newEvs,
      (o.create_due_auto_events templates base actor now).events = o.events ++ newEvs ∧
      (∀ e ∈ newEvs, e.actor = none ∧ e.location = "(авто)" ∧
        ∃ tpl, tpl ∈ activeTemplates templates base.status ∧
          e.status = renderText o actor tpl.text ∧
          e.timestamp = base.timestamp + (tpl.offset_minutes : Int) ∧ e.timestamp ≤ now) ∧
      (∀ tpl, tpl ∈ activeTemplates templates base.status →
        base.timestamp + (tpl.offset_minutes : Int) ≤ now →
        renderText o actor tpl.text ∈ (o.events ++ newEvs).map TrackingEvent.status) ∧
      (∀ e ∈ newEvs, e.status ∉ o.events.map TrackingEvent.status) ∧
      (newEvs.map TrackingEvent.status).Nodup :=
  create_due_spec o templates base actor now

/-- Instance of the amended claim C4 at a concrete order and template. -/
theorem due_auto_events_created_witness :
    ∃ newEvs,
      (orderOneScan.create_due_auto_events [tplDocs] evStep1 none 10).events
        = orderOneScan.events ++ newEvs ∧
      (∀ e ∈ newEvs, e.actor = none ∧ e.location = "(авто)" ∧
        ∃ tpl, tpl ∈ activeTemplates [tplDocs] evStep1.status ∧
          e.status = renderText orderOneScan none tpl.text ∧
          e.timestamp = evStep1.timestamp + (tpl.offset_minutes : Int) ∧ e.timestamp ≤ 10) ∧
      (∀ tpl, tpl ∈ activeTemplates [tplDocs] evStep1.status →
        evStep1.timestamp + (tpl.offset_minutes : Int) ≤ 10 →
        renderText orderOneScan none tpl.text
          ∈ (orderOneScan.events ++ newEvs).map TrackingEvent.status) ∧
      (∀ e ∈ newEvs, e.status ∉ orderOneScan.events.map TrackingEvent.status) ∧
      (newEvs.map TrackingEvent.status).Nodup :=
  due_auto_events_created orderOneScan [tplDocs] evStep1 none 10

/-- Claim C5: the due auto event materialization is idempotent: running it
a second time at the same or a later clock adds no further copy of any
status text present after the first run, so no duplicate event is ever
created. -/
theorem auto_events_idempotent (o : Order) (templates : List AutoStatusTemplate)
    (base : TrackingEvent) (actor : Option User) (now1 now2 : Int) (hle : now1 ≤ now2) :
    ∀ s, s ∈ (o.create_due_auto_events templates base actor now1).events.map
        TrackingEvent.status →
      List.count s (((o.create_due_auto_events templates base actor now1).create_due_auto_events
          templates base actor now2).events.map TrackingEvent.status)
        = List.count s ((o.create_due_auto_events templates base actor now1).events.map
            TrackingEvent.status) :=
  fun s hs =>
    create_due_count (o.create_due_auto_events templates base actor now1)
      templates base actor now2 s hs

/-- Instance of claim C5 at a concrete order and template: the text
created by the first run is not duplicated by the second run. -/
theorem auto_events_idempotent_witness :
    List.count "Документы оформлены"
        (((orderOneScan.create_due_auto_events [tplDocs] evStep1 none 5).create_due_auto_events
            [tplDocs] evStep1 none 5).events.map TrackingEvent.status)
      = List.count "Документы оформлены"
          ((orderOneScan.create_due_auto_events [tplDocs] evStep1 none 5).events.map
            TrackingEvent.status) :=
  auto_events_idempotent orderOneScan [tplDocs] evStep1 none 5 5 (by decide)
    "Документы оформлены" (by decide)

/-- Claim C3, counterexample: the cooldown check of apply_scan runs before
the terminal check, so on a fully delivered order a scan one minute after
the last manual event raises the cooldown error instead of being a silent
no-op. -/
theorem terminal_scan_error_counterexample :
    Order.next_status orderDone = none ∧
    orderDone.apply_scan [] "" none 31 = .error .cooldown :=
  ⟨rfl, rfl⟩

/-- Claim C3, amended: on an order whose progress is terminal, every call
to apply_scan that passes the capability check and the cooldown check
returns the unchanged order and no event. -/
theorem terminal_scan_noop (templates : List AutoStatusTemplate) (o : Order)
    (location : String) (actor : Option User) (now : Int)
    (hterm : o.next_status = none)
    (hcap : actorLacksCapability actor = false)
    (hcool : o.can_scan now = true) :
    o.apply_scan templates location actor now = .ok (o, none) := by
  simp [Order.apply_scan, hcap, hcool, hterm]

/-- Instance of the amended claim C3: a scan of the delivered order after
the cooldown has elapsed is accepted and changes nothing. -/
theorem terminal_scan_noop_witness :
    orderDone.apply_scan [] "" none 36 = .ok (orderDone, none) :=
  terminal_scan_noop [] orderDone "" none 36 rfl rfl rfl

/-- Claim C2: for an existing order and an authorized (or absent) user,
the scan is rejected by the cooldown exactly when the most recent manual
event is strictly less than the cooldown window before now; on rejection
handle_scan raises the throttling error when raise_on_cooldown is set and
otherwise returns the database, the order and the event slot unchanged;
when the cooldown passes, the cooldown branch is not taken and the call
reduces to apply_scan. -/
theorem cooldown_rejection (db : List Order) (templates : List AutoStatusTemplate)
    (tracking_number : String) (location : Option String) (user : Option User)
    (description : String) (raise_on_cooldown : Bool) (now : Int) (o : Order)
    (hfind : db.find? (fun x => x.tracking_number == strTrim tracking_number) = some o)
    (hauth : scanAuthFails user = false) :
    ((o.can_scan now = false) ↔
      ∃ ts, lastManualTimestamp o = some ts ∧ now - ts < SCAN_COOLDOWN_MINUTES) ∧
    (o.can_scan now = false →
      (raise_on_cooldown = true →
        handle_scan db templates tracking_number location user description raise_on_cooldown now
          = .error .cooldown) ∧
      (raise_on_cooldown = false →
        handle_scan db templates tracking_number location user description raise_on_cooldown now
          = .ok (db, o, none))) ∧
    (o.can_scan now = true →
      handle_scan db templates tracking_number location user description raise_on_cooldown now
        = match o.apply_scan templates (location.getD "") user now with
          | .error e => .error e
          | .ok (order2, ev) => .ok (putOrder db order2, order2, ev)) := by
  refine ⟨?_, ?_, ?_⟩
  · unfold Order.can_scan
    cases hl : lastManualTimestamp o with
    | none => simp
    | some ts =>
        simp only [decide_eq_false_iff_not, not_le, Option.some.injEq]
        constructor
        · intro h
          exact ⟨ts, rfl, h⟩
        · rintro ⟨ts2, rfl, h⟩
          exact h
  · intro hcool
    constructor
    · intro hroc
      subst hroc
      simp [handle_scan, hauth, hfind, hcool]
    · intro hroc
      subst hroc
      simp [handle_scan, hauth, hfind, hcool]
  · intro hcool
    simp [handle_scan, hauth, hfind, hcool]

/-- Instance of claim C2: one minute after a manual scan the repeated scan
of the same tracking number is a silent no-op. -/
theorem cooldown_rejection_witness :
    Order.can_scan orderOneScan 1 = false ∧
    handle_scan [orderOneScan] [] "AB124" none none "" false 1
      = .ok ([orderOneScan], orderOneScan, none) := by
  have h := cooldown_rejection [orderOneScan] [] "AB124" none none "" false 1 orderOneScan
    rfl rfl
  exact ⟨by decide, (h.2.1 (by decide)).2 rfl⟩

/-- Claim C6: claiming an existing order is idempotent for the current
owner, assigns the requester when the owner is unset, and fails with a
conflict leaving the owner unchanged when the order belongs to another
user. -/
theorem claim_ownership (o : Order) (requester : User) :
    (o.user.map User.id = some requester.id → orderClaimPost o requester = (.ok200, o)) ∧
    (o.user = none →
      orderClaimPost o requester = (.ok200, { o with user := some requester })) ∧
    (∀ u, o.user = some u → u.id ≠ requester.id →
      orderClaimPost o requester = (.conflict409, o)) := by
  refine ⟨?_, ?_, ?_⟩
  · intro h
    simp [orderClaimPost, h]
  · intro h
    simp [orderClaimPost, h]
  · intro u hu hne
    simp [orderClaimPost, hu, hne]

/-- Instance of claim C6: claiming a free order attaches the requester,
and a second claim by the same user is an idempotent success. -/
theorem claim_ownership_witness :
    orderClaimPost orderFresh emplUser
      = (.ok200, { orderFresh with user := some emplUser }) ∧
    orderClaimPost { orderFresh with user := some emplUser } emplUser
      = (.ok200, { orderFresh with user := some emplUser }) :=
  ⟨(claim_ownership orderFresh emplUser).2.1 rfl,
   (claim_ownership { orderFresh with user := some emplUser } emplUser).1 rfl⟩

/-- Materializing auto events never touches the owner field. -/
theorem create_due_user (o : Order) (templates : List AutoStatusTemplate)
    (base : TrackingEvent) (actor : Option User) (now : Int) :
    (o.create_due_auto_events templates base actor now).user = o.user := rfl

/-- A successful apply_scan never touches the owner field. -/
theorem apply_scan_user (o : Order) (templates : List AutoStatusTemplate)
    (location : String) (actor : Option User) (now : Int) (o2 : Order)
    (ev : Option TrackingEvent)
    (h : o.apply_scan templates location actor now = .ok (o2, ev)) :
    o2.user = o.user := by
  by_cases hcap : actorLacksCapability actor = true
  · simp [Order.apply_scan, hcap] at h
  · rw [Bool.not_eq_true] at hcap
    by_cases hcan : o.can_scan now = true
    · cases hnext : o.next_status with
      | none =>
          simp [Order.apply_scan, hcap, hcan, hnext] at h
          rw [← h.1]
      | some nxt =>
          simp [Order.apply_scan, hcap, hcan, hnext] at h
          rw [← h.1]
          rfl
    · rw [Bool.not_eq_true] at hcan
      simp [Order.apply_scan, hcap, hcan] at h

/-- Claim C9: scanning never assigns ownership: a successful handle_scan
returns an order whose owner equals the owner stored for that tracking
number before the call, and an order created on first sight of an unseen
tracking number has no owner, whoever scanned. -/
theorem scan_preserves_owner (db : List Order) (templates : List AutoStatusTemplate)
    (tracking_number : String) (location : Option String) (user : Option User)
    (description : String) (raise_on_cooldown : Bool) (now : Int)
    (db2 : List Order) (o2 : Order) (ev : Option TrackingEvent)
    (h : handle_scan db templates tracking_number location user description raise_on_cooldown now
      = .ok (db2, o2, ev)) :
    (∀ o, db.find? (fun x => x.tracking_number == strTrim tracking_number) = some o →
      o2.user = o.user) ∧
    (db.find? (fun x => x.tracking_number == strTrim tracking_number) = none →
      o2.user = none) := by
  by_cases hauth : scanAuthFails user = true
  · simp [handle_scan, hauth] at h
  · rw [Bool.not_eq_true] at hauth
    cases hfind : db.find? (fun x => x.tracking_number == strTrim tracking_number) with
    | none =>
        refine ⟨?_, ?_⟩
        · intro o ho
          cases ho
        · intro _
          simp only [handle_scan, hauth, hfind] at h
          simp at h
          cases happ : Order.apply_scan
              { user := none, tracking_number := strTrim tracking_number,
                description := description, events := [] }
              templates (location.getD "") user now with
          | error e =>
              rw [happ] at h
              cases h
          | ok p =>
              rw [happ] at h
              obtain ⟨o3, ev3⟩ := p
              simp only [Except.ok.injEq, Prod.mk.injEq] at h
              have hu := apply_scan_user _ _ _ _ _ _ _ happ
              rw [← h.2.1] at *
              exact hu
    | some o0 =>
        refine ⟨?_, ?_⟩
        · intro o ho
          injection ho with ho
          subst ho
          simp only [handle_scan, hauth, hfind] at h
          by_cases hcan : Order.can_scan o0 now = true
          · rw [hcan] at h
            simp at h
            cases happ : Order.apply_scan o0 templates (location.getD "") user now with
            | error e =>
                rw [happ] at h
                cases h
            | ok p =>
                rw [happ] at h
                obtain ⟨o3, ev3⟩ := p
                simp only [Except.ok.injEq, Prod.mk.injEq] at h
                have hu := apply_scan_user _ _ _ _ _ _ _ happ
                rw [← h.2.1] at *
                exact hu
          · rw [Bool.not_eq_true] at hcan
            rw [hcan] at h
            simp at h
            cases hroc : raise_on_cooldown with
            | true =>
                rw [hroc] at h
                simp at h
            | false =>
                rw [hroc] at h
                simp at h
                rw [← h.2.1]
        · intro hno
          cases hno

/-- Instance of claim C9: a first scan by an employee creates the order
with no owner. -/
theorem scan_preserves_owner_witness :
    Order.user
        ⟨none, "AB125", "", [⟨"Товар поступил на склад в Китае", "", 0, some emplUser⟩]⟩
      = none :=
  (scan_preserves_owner [] [] "AB125" none (some emplUser) "" false 0
      [⟨none, "AB125", "", [⟨"Товар поступил на склад в Китае", "", 0, some emplUser⟩]⟩]
      ⟨none, "AB125", "", [⟨"Товар поступил на склад в Китае", "", 0, some emplUser⟩]⟩
      (some ⟨"Товар поступил на склад в Китае", "", 0, some emplUser⟩) rfl).2 rfl

/-- Claim C10: a successful apply_scan with no actor skips the capability
check and creates an event with a null actor, so the manual events, the
next status, the last manual timestamp and hence the cooldown answer are
unchanged; on an order with no manual events the created event always
carries the step 1 text, so repeated actorless scans re-create it. -/
theorem actorless_scan (templates : List AutoStatusTemplate) (o : Order)
    (location : String) (now : Int) (o2 : Order) (ev : TrackingEvent)
    (h : o.apply_scan templates location none now = .ok (o2, some ev)) :
    ev.actor = none ∧
    o2.manualEvents = o.manualEvents ∧
    o2.next_status = o.next_status ∧
    lastManualTimestamp o2 = lastManualTimestamp o ∧
    (∀ t, o2.can_scan t = o.can_scan t) ∧
    (manualTexts o = [] → ev.status = "Товар поступил на склад в Китае") := by
  by_cases hcan : o.can_scan now = true
  · cases hnext : o.next_status with
    | none => simp [Order.apply_scan, actorLacksCapability, hcan, hnext] at h
    | some nxt =>
        simp only [Order.apply_scan, actorLacksCapability, hcan, hnext] at h
        simp at h
        obtain ⟨ho2, hev⟩ := h
        set stx := if nxt = "Прибыл в пункт выдачи" then renderText o none ARRIVED_TEMPLATE
          else nxt with hstx
        obtain ⟨newEvs, he, hprops, _, _, _⟩ :=
          create_due_spec { o with events := o.events ++ [⟨stx, location, now, none⟩] }
            templates ⟨stx, location, now, none⟩ none now
        have hman : o2.manualEvents = o.manualEvents := by
          rw [← ho2]
          show (Order.manualEvents _) = _
          unfold Order.manualEvents
          rw [he]
          simp only [List.filter_append]
          have h1 : List.filter (fun e => e.actor.isSome)
              [(⟨stx, location, now, none⟩ : TrackingEvent)] = [] := by
            simp [List.filter]
          have h2 : List.filter (fun e => e.actor.isSome) newEvs = [] := by
            rw [List.filter_eq_nil_iff]
            intro e hee
            have := (hprops e hee).1
            simp [this]
          rw [h1, h2]
          simp
        have hlast : lastManualTimestamp o2 = lastManualTimestamp o := by
          unfold lastManualTimestamp
          rw [hman]
        refine ⟨?_, hman, ?_, hlast, ?_, ?_⟩
        · rw [← hev]
        · have hns : o2.next_status = o.next_status := by
            show nextStatusOfTexts (manualTexts o2) = nextStatusOfTexts (manualTexts o)
            unfold manualTexts
            rw [hman]
          rw [hns, hnext]
        · intro t
          unfold Order.can_scan
          rw [hlast]
        · intro hm
          have hstep : o.next_status = some "Товар поступил на склад в Китае" := by
            show nextStatusOfTexts (manualTexts o) = _
            rw [hm]
            rfl
          rw [hnext] at hstep
          injection hstep with hstep
          subst hstep
          rw [← hev]
          show stx = "Товар поступил на склад в Китае"
          rw [hstx, if_neg (by decide)]
  · rw [Bool.not_eq_true] at hcan
    simp [Order.apply_scan, actorLacksCapability, hcan] at h

/-- Instance of claim C10 at a fresh order: the actorless scan leaves the
manual events and the next status unchanged. -/
theorem actorless_scan_witness :
    Order.manualEvents ⟨none, "AB125", "", [⟨"Товар поступил на склад в Китае", "", 0, none⟩]⟩
      = Order.manualEvents orderFresh ∧
    Order.next_status ⟨none, "AB125", "", [⟨"Товар поступил на склад в Китае", "", 0, none⟩]⟩
      = Order.next_status orderFresh :=
  ⟨(actorless_scan [] orderFresh "" 0
      ⟨none, "AB125", "", [⟨"Товар поступил на склад в Китае", "", 0, none⟩]⟩
      ⟨"Товар поступил на склад в Китае", "", 0, none⟩ rfl).2.1,
   (actorless_scan [] orderFresh "" 0
      ⟨none, "AB125", "", [⟨"Товар поступил на склад в Китае", "", 0, none⟩]⟩
      ⟨"Товар поступил на склад в Китае", "", 0, none⟩ rfl).2.2.1⟩

/-- Claim C7, counterexample: handle_scan trims the tracking number but
does not reject an empty result: a whitespace only tracking number is
accepted, an order with the empty string as tracking number is created
and a step 1 event is recorded — no validation error, with an order and
an event created. -/
theorem empty_tracking_counterexample :
    strTrim "   " = "" ∧
    handle_scan [] [] "   " none none "" false 0
      = .ok ([⟨none, "", "", [⟨"Товар поступил на склад в Китае", "", 0, none⟩]⟩],
             ⟨none, "", "", [⟨"Товар поступил на склад в Китае", "", 0, none⟩]⟩,
             some ⟨"Товар поступил на склад в Китае", "", 0, none⟩) :=
  ⟨rfl, rfl⟩

/-- Claim C7, amended: handle_scan trims whitespace from the tracking
number, but an empty trimmed tracking number is not rejected: the call
proceeds and, when no order with the empty tracking number exists,
creates one (owner unset) together with a step 1 event. -/
theorem empty_tracking_accepted (db : List Order) (templates : List AutoStatusTemplate)
    (tracking_number : String) (location : Option String) (description : String)
    (raise_on_cooldown : Bool) (now : Int)
    (htrim : strTrim tracking_number = "")
    (hfind : db.find? (fun o => o.tracking_number == ("" : String)) = none) :
    ∃ o2 ev,
      handle_scan db templates tracking_number location none description raise_on_cooldown now
        = .ok (putOrder db o2, o2, some ev) ∧
      o2.tracking_number = "" ∧ o2.user = none ∧
      ev.status = "Товар поступил на склад в Китае" ∧
      ev.actor = none ∧ ev.timestamp = now := by
  refine ⟨Order.create_due_auto_events
      ⟨none, "", description,
        [⟨"Товар поступил на склад в Китае", location.getD "", now, none⟩]⟩
      templates ⟨"Товар поступил на склад в Китае", location.getD "", now, none⟩ none now,
    ⟨"Товар поступил на склад в Китае", location.getD "", now, none⟩,
    ?_, rfl, rfl, rfl, rfl, rfl⟩
  simp only [handle_scan, htrim, hfind]
  rfl

/-- Instance of the amended claim C7: the whitespace only tracking number
is accepted and creates the order with the empty tracking number. -/
theorem empty_tracking_accepted_witness :
    ∃ o2 ev,
      handle_scan [] [] "   " none none "" false 0 = .ok (putOrder [] o2, o2, some ev) ∧
      o2.tracking_number = "" ∧ o2.user = none ∧
      ev.status = "Товар поступил на склад в Китае" ∧
      ev.actor = none ∧ ev.timestamp = 0 :=
  empty_tracking_accepted [] [] "   " none "" false 0 rfl rfl

/-- Instance of claim C1 at the fully delivered order. -/
theorem next_status_characterization_witness :
    ∃ k, k ≤ 4 ∧
      (∀ i, i < k → stepMatched (manualTexts orderDone) i) ∧
      (∀ j, (∀ i, i < j → stepMatched (manualTexts orderDone) i) → j ≤ k) ∧
      orderDone.next_status = STATUS_FLOW.get? k ∧
      (k = 4 → orderDone.next_status = none) :=
  next_status_characterization orderDone

/-- Instance of claim C8 on a concrete text list. -/
theorem progress_monotone_witness :
    progressCount ["Товар поступил на склад в Китае"] STATUS_FLOW
      ≤ progressCount (["Товар поступил на склад в Китае"] ++ ["Товар отправлен со склада"])
          STATUS_FLOW :=
  progress_monotone ["Товар поступил на склад в Китае"] "Товар отправлен со склада"

end LiderCargo
